import Mathlib

/-!
Verification development for the raw NTFS extraction engine
(`src/RawNTFSExtraction.c`).

The C program is embedded shallowly:

* Disk contents and in-memory record buffers are byte maps `Nat → Nat`
  (values are bytes, reduced `% 256` whenever a byte is read), the block
  device is an `Int → Nat` map (seek offsets are signed `off_t`).
* Fixed-width little-endian machine integers become `Nat`/`Int` with
  explicit `% 2^w` reductions at the points where the C code can wrap
  (`uint16_t` attribute offsets, `uint8_t` name buffer sizes, the
  `int64_t` run-list offset field that `memcpy` fills).
* The global cursor state of the block device (`blk_offset` updated by
  `lseekAbs`/`lseekRel`, plus the kernel file position advanced by
  `read`) is threaded through an explicit state record.
* Code that lives in headers absent from `src/` (`RunList.h`,
  `FileLUT.h`, `Utility.h`, `NTFSStruct.h`) is modelled from the spec;
  every such definition carries a doc comment starting
  `Modelled from the spec:`.

Struct field byte offsets used below (little-endian, per spec §3):
MFT record header: signature 0..3, fixup_offset 4..5, fixup_size 6..7,
lsn 8..15, sequence 16..17, hard_link_count 18..19,
first_attribute_offset 20..21, flags 22..23, used_size 24..27,
allocated_size 28..31, base_record_reference 32..39,
next_attribute_id 40..41, record_number 42..45.
Attribute header: type_code 0..3, length 4..7, non_resident_flag 8,
name_length 9, name_offset 10..11, flags 12..13, attribute_id 14..15;
resident tail: content_length 16..19, content_offset 20..21;
non-resident tail: starting_vcn 16..23, ending_vcn 24..31,
runlist_offset 32..33.
-/

namespace RawNTFS

/-- Finite byte table: association list of (position, byte), absent
positions read as `0`.  Used to build concrete test buffers. -/
def tbl (l : List (Nat × Nat)) : Nat → Nat :=
  fun p => ((l.lookup p).getD 0)

/-- Read `k` consecutive bytes little-endian from a byte map, as the C
code's `memcpy` into a zero-initialised integer does. -/
def readLE (f : Nat → Nat) : Nat → Nat → Nat
  | _, 0 => 0
  | off, k + 1 => f off % 256 + 256 * readLE f (off + 1) k

/-- Little-endian `uint16_t` field read. -/
def le16 (f : Nat → Nat) (off : Nat) : Nat := readLE f off 2

/-- Little-endian `uint32_t` field read. -/
def le32 (f : Nat → Nat) (off : Nat) : Nat := readLE f off 4

/-- Little-endian `uint64_t` field read. -/
def le64 (f : Nat → Nat) (off : Nat) : Nat := readLE f off 8

/-- Reinterpret an unsigned 64-bit value as the two's-complement
`int64_t` the C code stores it in. -/
def toInt64 (v : Nat) : Int :=
  if v < 9223372036854775808 then (v : Int) else (v : Int) - 18446744073709551616

/-- Value of a possibly negative `int` after conversion to `uint32_t`,
as the usual arithmetic conversions perform in
`dwFullLength > MFT_RECORD_LENGTH - attrOffset`. -/
def wrap32 (z : Int) : Nat := (z % 4294967296).toNat

/-- `#define MFT_RECORD_LENGTH 1024` (RawNTFSExtraction.c line 37): the
fixed record size the code uses both to read the first MFT record
(line 161) and to stride the linearized MFT (line 453). -/
def MFT_RECORD_LENGTH : Nat := 1024

/-- `#define IN_USE 0x01` (line 38). -/
def IN_USE : Nat := 1

/-- `#define DIRECTORY 0x02` (line 39). -/
def DIRECTORY : Nat := 2

/-- Modelled from the spec: §4.4 BootSectorParser's `mft_record_size`
derivation ("if `clusters_per_mft_record` (signed) ≥ 0,
`clusters_per_mft_record × bytes_per_cluster`; else
`1 << (-clusters_per_mft_record)`").  The C source never performs this
derivation; this definition exists to compare the spec's formula with
the source's fixed `MFT_RECORD_LENGTH`. -/
def mftRecordSizeSpec (bytesPerCluster : Nat) (cpmr : Int) : Nat :=
  if 0 ≤ cpmr then cpmr.toNat * bytesPerCluster
  else Nat.shiftLeft 1 (-cpmr).toNat

/-! ## Run-list decoding (RawNTFSExtraction.c lines 275-311)

The C loop reads one header byte (low nibble = byte-width of the length
field, high nibble = byte-width of the offset field), `memcpy`s the
length field into a zero-initialised `uint64_t` and the offset field
into a zero-initialised `int64_t` (so the offset is zero-extended, not
sign-extended), appends the run, and repeats while the next header byte
is non-zero (a do-while: one run is always decoded).  `dataRunOffset`
is a `uint16_t` and wraps accordingly. -/

/-- Modelled from the spec: `RunList.h` is absent from `src/`.  Per §9
the decoded list "is already in VCN order as decoded", so `addRun`
appends the new run at the tail. -/
def addRun (l : List (Nat × Int)) (len : Nat) (off : Int) : List (Nat × Int) :=
  l ++ [(len, off)]

/-- Modelled from the spec: `RunList.h` is absent from `src/`.  §9:
"The source reverses the decoded run list before iterating." -/
def reverseList (l : List (Nat × Int)) : List (Nat × Int) :=
  l.reverse

/-- One iteration per data run of the do-while at lines 276-311.  `base`
is `mftBuffer + attribOffset` (fixed), `dro` is the `uint16_t`
`dataRunOffset`.  The length and offset fields are `memcpy`ed into
8-byte integers, so at most 8 bytes land in the value (a width nibble
greater than 8 overruns the heap allocation in C; the in-value bytes are
the first 8).  The offset is zero-extended: the high bytes of the
`int64_t` stay zero.  Fuel bounds the loop, which C does not. -/
def runDecodeGo (buf : Nat → Nat) (base : Nat) :
    Nat → Nat → List (Nat × Int) → List (Nat × Int)
  | 0, _, acc => acc
  | fuel + 1, dro, acc =>
    let h := buf (base + dro) % 256
    let lS := h % 16
    let oS := h / 16
    let dro1 := (dro + 1) % 65536
    let len := readLE buf (base + dro1) (min lS 8)
    let dro2 := (dro1 + lS) % 65536
    let off := toInt64 (readLE buf (base + dro2) (min oS 8))
    let dro3 := (dro2 + oS) % 65536
    let acc1 := addRun acc len off
    if buf (base + dro3) % 256 = 0 then acc1
    else runDecodeGo buf base fuel dro3 acc1

/-- The run-list decoder of lines 275-311: repeatedly decode runs
starting at `base + dro0` until the next header byte is zero. -/
def decodeRuns (buf : Nat → Nat) (base : Nat) (dro0 : Nat) : List (Nat × Int) :=
  runDecodeGo buf base 65536 (dro0 % 65536) []

/-- Little-endian value of a byte list. -/
def leList : List Nat → Nat
  | [] => 0
  | b :: rest => b % 256 + 256 * leList rest

/-- Sign extension of an `o`-byte little-endian value, as the spec's
§4.6 step 6 requires ("read `O` bytes sign-extended into `delta: i64`"). -/
def signExt (v : Nat) (o : Nat) : Int :=
  if v < 2 ^ (8 * o - 1) then (v : Int) else (v : Int) - 2 ^ (8 * o)

/-- Modelled from the spec: the §4.6 RunListDecoder algorithm, used as
the comparison point for C1.  Maintains `current_lcn`, sign-extends the
offset field, fails (`none`) on a bad width nibble or a truncated run,
emits `(length, none)` for sparse runs. -/
def runListSpecGo : Nat → List Nat → Int → List (Nat × Option Int) →
    Option (List (Nat × Option Int))
  | 0, _, _, _ => none
  | fuel + 1, bytes, lcn, acc =>
    match bytes with
    | [] => none
    | h :: rest =>
      if h % 256 = 0 then some acc
      else
        let lS := h % 256 % 16
        let oS := h % 256 / 16
        if lS = 0 ∨ 8 < lS ∨ 8 < oS then none
        else if rest.length < lS + oS then none
        else
          let len := leList (rest.take lS)
          let rest2 := rest.drop lS
          if oS = 0 then
            runListSpecGo fuel rest2 lcn (acc ++ [(len, none)])
          else
            let lcn1 := lcn + signExt (leList (rest2.take oS)) oS
            runListSpecGo fuel (rest2.drop oS) lcn1 (acc ++ [(len, some lcn1)])

/-- Modelled from the spec: §4.6 decoder entry point. -/
def runListDecodeSpec (bytes : List Nat) : Option (List (Nat × Option Int)) :=
  runListSpecGo (bytes.length + 1) bytes 0 []

/-! ## Record classification (RawNTFSExtraction.c lines 482-492) -/

/-- The four counters the cataloger keeps for record classification. -/
inductive RecClass where
  | file
  | deleted
  | directory
  | other
deriving DecidableEq

/-- Classification of an MFT record by `mftFileH->wFlags`, exactly as
the if/else chain at lines 483-492 evaluates in C:
`mftFlags==IN_USE` counts a file; `mftFlags==!IN_USE` (and `!IN_USE`
evaluates to `0`) counts a deleted entity; `mftFlags==IN_USE||DIRECTORY`
parses as `(mftFlags==IN_USE)||DIRECTORY` and `DIRECTORY` is the nonzero
constant 2, so this branch is always taken; the final `else` is
unreachable. -/
def classifyFlags (f : Nat) : RecClass :=
  if f = IN_USE then .file
  else if f = 0 then .deleted
  else if f = IN_USE ∨ DIRECTORY ≠ 0 then .directory
  else .other

/-- The classification counters `countFiles`, `countDir`,
`countDelEntity`, `countOther`. -/
structure Counts where
  files : Nat
  dirs : Nat
  deleted : Nat
  other : Nat
deriving DecidableEq

/-- Bump the counter selected by a record's classification. -/
def bump (c : RecClass) (k : Counts) : Counts :=
  match c with
  | .file => { k with files := k.files + 1 }
  | .deleted => { k with deleted := k.deleted + 1 }
  | .directory => { k with dirs := k.dirs + 1 }
  | .other => { k with other := k.other + 1 }

/-- Classification counters after a sequence of records with the given
flag values. -/
def countFlags (l : List Nat) : Counts :=
  l.foldl (fun k f => bump (classifyFlags f) k) ⟨0, 0, 0, 0⟩

/-! ## Output file naming (RawNTFSExtraction.c lines 324-332, 428) -/

/-- Decimal digit characters of the partition index, as `%d` formats
it. -/
def partSuffix (p : Nat) : List Char := (toString p).data

/-- The extraction stage's local file name (lines 324-327): the buffer
is sized by `snprintf(NULL, 0, "%s%d", ascFileName, workingPartition)+1`
(no `.data`), the size is stored in a `uint8_t`, and then
`"%s%d.data"` is formatted into that buffer, truncating to size-1
characters. -/
def extractionFileNameL (asc : List Char) (p : Nat) : List Char :=
  let n := ((asc ++ partSuffix p).length + 1) % 256
  (asc ++ partSuffix p ++ ".data".data).take (n - 1)

/-- The cataloging stage's input file name: line 428 opens the string
literal `"$MFT1"` unconditionally. -/
def catalogInputFileName : List Char := "$MFT1".data

/-! ## MFT extraction loop (RawNTFSExtraction.c lines 339-399)

The code backs up the cursor, seeks the block device to the partition
base (`lseek(fd, relativePartSector, SEEK_SET)`), and walks
`p_head = reverseList(decoded run list)`.  Per run it applies the raw
stored offset as a relative seek (`lseekRel(fd, dwBytesPerCluster *
(*offset))`, which also stores the result in the global `blk_offset`),
reads `dwBytesPerCluster * (*length)` bytes (advancing the kernel file
position but not `blk_offset`), writes a `FRAG` marker carrying
`blk_offset` followed by the bytes read, and finally rewinds by the read
length with another relative seek.  The guard
`if (p_current_item->offset && p_current_item->length)` tests the two
heap-boxed field pointers, which `addRun` always allocates, so every run
is extracted (even sparse runs whose offset value is 0). -/

/-- Little-endian bytes of a `uint64_t`. -/
def le64Bytes (v : Int) : List Nat :=
  (List.range 8).map (fun i => (v % 18446744073709551616).toNat / 256 ^ i % 256)

/-- Modelled from the spec: `createFragRecord` lives in a header absent
from `src/`; §3 and §6 define the marker as the 8 ASCII bytes
`FRAG\0\0\0\0` followed by the u64 little-endian absolute device
offset, 16 bytes in total. -/
def createFragRecord (off : Int) : List Nat :=
  [70, 82, 65, 71, 0, 0, 0, 0] ++ le64Bytes off

/-- Bytes read from the block device at position `p`. -/
def readDev (dev : Int → Nat) (p : Int) (n : Nat) : List Nat :=
  (List.range n).map (fun (i : Nat) => dev (p + (i : Int)) % 256)

/-- State of the extraction loop: kernel file position, the global
`blk_offset` (last `lseek` result), the fragment markers written so far
(device offset, byte length), and the bytes written to the sink file. -/
structure ExtAcc where
  pos : Int
  blk : Int
  frags : List (Int × Nat)
  sink : List Nat

/-- State after `lseek(fd, base, SEEK_SET)` at line 342. -/
def initExt (base : Int) : ExtAcc :=
  { pos := base, blk := base, frags := [], sink := [] }

/-- One iteration of the `while (p_current_item)` loop (lines 351-395):
relative seek by `bpc * offset` (updating `blk_offset`), read `bpc *
length` bytes from the new position, write the marker (carrying
`blk_offset`) and the data to the sink, then rewind by the read
length. -/
def extRun (dev : Int → Nat) (bpc : Nat) (st : ExtAcc) (r : Nat × Int) : ExtAcc :=
  let p1 : Int := st.pos + (bpc : Int) * r.2
  let rl : Nat := bpc * r.1
  let data := readDev dev p1 rl
  let p2 : Int := p1 + (rl : Int)
  let p3 : Int := p2 - (rl : Int)
  { pos := p3, blk := p3,
    frags := st.frags ++ [(p1, rl)],
    sink := st.sink ++ createFragRecord p1 ++ data }

/-- The extraction loop over the iterated run list. -/
def extGo (dev : Int → Nat) (bpc : Nat) : ExtAcc → List (Nat × Int) → ExtAcc
  | st, [] => st
  | st, r :: rs => extGo dev bpc (extRun dev bpc st r) rs

/-- The whole extraction of the `$MFT` `$DATA` attribute: line 313
reverses the decoded run list, then lines 339-399 iterate it from the
partition base. -/
def extractMFT (dev : Int → Nat) (base : Int) (bpc : Nat)
    (decoded : List (Nat × Int)) : ExtAcc :=
  extGo dev bpc (initExt base) (reverseList decoded)

/-- Marker positions and byte lengths produced when iterating runs from
a given start position: each run's raw offset field is added to the
running position. -/
def fragsFrom (bpc : Nat) : Int → List (Nat × Int) → List (Int × Nat)
  | _, [] => []
  | pos, r :: rs =>
    (pos + (bpc : Int) * r.2, bpc * r.1) :: fragsFrom bpc (pos + (bpc : Int) * r.2) rs

/-- The sink layout dictated by a fragment list: each marker immediately
followed by exactly the device bytes at the marker's offset. -/
def sinkFromFrags (dev : Int → Nat) : List (Int × Nat) → List Nat
  | [] => []
  | f :: t => createFragRecord f.1 ++ readDev dev f.1 f.2 ++ sinkFromFrags dev t

/-! ## Record cataloging (RawNTFSExtraction.c lines 424-577)

The cataloger `fread`s the local MFT copy in strides of
`MFT_RECORD_LENGTH` bytes (a trailing partial stride makes `fread`
return 0 and ends the loop).  Each stride is classified by its leading
bytes: `FRAG` updates the current fragment offset, `FILE0` (the
`strcmp(fileSignature, "FILE0")` on the 4-byte signature array also
compares the two following `wFixupOffset` bytes, so it demands the six
bytes `F I L E 0x30 0x00`) is cataloged, and anything else prints "MFT
file corrupted." and returns `EXIT_FAILURE`. -/

/-- Modelled from the spec: `getFileName` lives in `Utility.h`, absent
from `src/`.  Per §4.5 the `$FILE_NAME` content sits at the resident
content offset (attribute offset 20..21); `name_length_chars` is the
byte at content offset 56 and the name is UTF-16LE at content offset
58, ASCII-decoded to its low bytes. -/
def getFileName (buf : Nat → Nat) (attrOff : Nat) : List Nat :=
  let c := attrOff + le16 buf (attrOff + 20)
  (List.range (buf (c + 56) % 256)).map (fun i => buf (c + 58 + 2 * i) % 256)

/-- A catalog entry: the fields `addFile(files, aFileName,
u64bytesAbsMFTOffset, mftFileH->dwMFTRecNumber)` receives. -/
structure FileEnt where
  name : Option (List Nat)
  fragOff : Nat
  recNo : Nat
deriving DecidableEq

/-- Modelled from the spec: `addFile` lives in `FileLUT.h`, absent from
`src/`; it builds the in-memory catalog list, inserting at the head of
the hand-rolled linked list. -/
def addFile (files : List FileEnt) (name : Option (List Nat))
    (fragOff : Nat) (recNo : Nat) : List FileEnt :=
  ⟨name, fragOff, recNo⟩ :: files

/-- The cataloger's mutable state: the running fragment offset
`u64bytesAbsMFTOffset` and the counters and file list of lines
445-451. -/
structure CatState where
  curFragOff : Nat
  counts : Counts
  countBadAttr : Nat
  countFrags : Nat
  countRecords : Nat
  countFileNames : Nat
  files : List FileEnt
deriving DecidableEq

/-- Counters and catalog before the stride loop starts. -/
def initCat : CatState :=
  { curFragOff := 0, counts := ⟨0, 0, 0, 0⟩, countBadAttr := 0,
    countFrags := 0, countRecords := 0, countFileNames := 0, files := [] }

/-- Check of lines 463-466: the stride's first four bytes spell
`FRAG`. -/
def sigIsFrag (s : Nat → Nat) : Bool :=
  s 0 % 256 == 70 && s 1 % 256 == 82 && s 2 % 256 == 65 && s 3 % 256 == 71

/-- Check of line 477, `strcmp(mftFileH->fileSignature, "FILE0") == 0`:
bytes `F I L E`, then `0x30` and `0x00` (the little-endian
`wFixupOffset` value 48 of a real record). -/
def sigIsFile0 (s : Nat → Nat) : Bool :=
  s 0 % 256 == 70 && s 1 % 256 == 73 && s 2 % 256 == 76 &&
  s 3 % 256 == 69 && s 4 % 256 == 48 && s 5 % 256 == 0

/-- The stage-B attribute walk (lines 496-565) on one record stride.
Returns `(countBadAttr delta, countFileNames delta, aFileName)`.  Per
iteration: read the attribute header; if `dwFullLength >
MFT_RECORD_LENGTH - attrOffset` (the right side an `int` converted to
`uint32_t` by the comparison) count a bad attribute and break;
otherwise dispatch (only the `FILE_NAME` branch, type 0x30, has an
effect: `getFileName` plus `countFileNames++`), advance the `uint16_t`
offset by `dwFullLength`, and continue while `attrOffset + 8 <
mftFileH->dwRecLength`.  Fuel bounds the loop, which C does not (a zero
`dwFullLength` loops forever there). -/
def walkB (s : Nat → Nat) (recLen : Nat) :
    Nat → Nat → Nat → Nat → Option (List Nat) → Nat × Nat × Option (List Nat)
  | 0, _, bad, fn, nm => (bad, fn, nm)
  | fuel + 1, off, bad, fn, nm =>
    let fullLen := le32 s (off + 4)
    if wrap32 ((MFT_RECORD_LENGTH : Int) - (off : Int)) < fullLen then
      (bad + 1, fn, nm)
    else
      let ty := le32 s off
      let fn1 := if ty = 48 then fn + 1 else fn
      let nm1 := if ty = 48 then some (getFileName s off) else nm
      let off1 := (off + fullLen) % 65536
      if off1 + 8 < recLen then walkB s recLen fuel off1 bad fn1 nm1
      else (bad, fn1, nm1)

/-- Processing of one `FILE0` stride (lines 477-570): classify by
`wFlags` (offset 22), walk the attributes from `wAttribOffset` (offset
20) bounded by `dwRecLength` (offset 24), count the record and insert a
catalog entry carrying the current fragment offset and the record
number. -/
def processFile (st : CatState) (s : Nat → Nat) : CatState :=
  let w := walkB s (le32 s 24) MFT_RECORD_LENGTH (le16 s 20) 0 0 none
  { st with
    counts := bump (classifyFlags (le16 s 22)) st.counts,
    countBadAttr := st.countBadAttr + w.1,
    countFileNames := st.countFileNames + w.2.1,
    countRecords := st.countRecords + 1,
    files := addFile st.files w.2.2 st.curFragOff (le32 s 42) }

/-- State of a `FILE0` stride whose first attribute header already
fails the length check: one bad attribute counted, the record still
counted and cataloged with no name. -/
def fileStepBad (st : CatState) (s : Nat → Nat) : CatState :=
  { st with
    counts := bump (classifyFlags (le16 s 22)) st.counts,
    countBadAttr := st.countBadAttr + 1,
    countRecords := st.countRecords + 1,
    files := addFile st.files none st.curFragOff (le32 s 42) }

/-- Processing of one `FRAG` stride (lines 463-474): the u64 at offset
8 becomes the fragment offset for the records that follow. -/
def fragStep (st : CatState) (s : Nat → Nat) : CatState :=
  { st with curFragOff := le64 s 8, countFrags := st.countFrags + 1 }

/-- The stride loop of lines 453-577.  A stride that is neither a
fragment marker nor a `FILE0` record makes the process print "MFT file
corrupted." and `return EXIT_FAILURE`, modelled as `Except.error`. -/
def catalogGo : List (Nat → Nat) → CatState → Except Unit CatState
  | [], st => .ok st
  | s :: rest, st =>
    if sigIsFrag s then catalogGo rest (fragStep st s)
    else if sigIsFile0 s then catalogGo rest (processFile st s)
    else .error ()

/-- Stride `j` of a byte stream read through a byte map. -/
def strideFn (sf : Nat → Nat) (j : Nat) : Nat → Nat :=
  fun i => sf (MFT_RECORD_LENGTH * j + i)

/-- Catalog a byte stream holding `n` complete strides. -/
def catalogStrides (sf : Nat → Nat) (n : Nat) : Except Unit CatState :=
  catalogGo ((List.range n).map (strideFn sf)) initCat

/-- Catalog a linearized MFT byte sequence: `fread` yields
`sink.length / MFT_RECORD_LENGTH` complete strides (the trailing
partial stride, if any, ends the loop). -/
def catalogSink (sink : List Nat) : Except Unit CatState :=
  catalogStrides (fun p => sink.getD p 0) (sink.length / MFT_RECORD_LENGTH)

/-- Byte-map view of the sink layout of `sinkFromFrags` (0 past the
end). -/
def sinkFunFromFrags (dev : Int → Nat) : List (Int × Nat) → Nat → Nat
  | [], _ => 0
  | f :: t, p =>
    if p < 16 then (createFragRecord f.1).getD p 0
    else if p < 16 + f.2 then dev (f.1 + ((p : Int) - 16)) % 256
    else sinkFunFromFrags dev t (p - (16 + f.2))

/-! ## First MFT record processing (RawNTFSExtraction.c lines 157-408)

Stage A reads one `MFT_RECORD_LENGTH` record at the computed MFT offset
and walks its attribute chain in a do-while.  A `FILE_NAME` attribute
(type 0x30) sets `ascFileName` and toggles `isMFTFile :=
strcmp(name, "$MFT") == 0`.  A non-resident attribute
(`uchNonResFlag == true`, i.e. the byte equals 1) has its run list
decoded and reversed; if at that point `isMFTFile` holds and the type is
`DATA` (0x80), the run list is extracted to the local file.  When the
name does not match, no error of any kind is raised: the `if` is simply
skipped and the partition loop moves on (the only `EXIT_FAILURE` paths
in this region are OS-level I/O failures, which the byte-level
embedding, reading from total byte maps, cannot produce). -/

/-- ASCII bytes of the string literal `"$MFT"` compared by the
`strcmp` at line 200. -/
def mftName : List Nat := [36, 77, 70, 84]

/-- The fatal error exits (`return EXIT_FAILURE`) that stage A can take
for a partition; all of them are OS I/O failures, never produced by the
byte-level embedding. -/
inductive FatalErr where
  | readFail
  | createFail
  | seekFail
  | writeFail
deriving DecidableEq

/-- Observable state of the stage-A attribute walk: the last decoded
ASCII file name (`ascFileName`), the `isMFTFile` toggle, the decoded
run list handed to the extraction block (if it ran), and — for
specification purposes — the list of every `$FILE_NAME` name the walk
decoded, in order. -/
structure FRState where
  ascName : Option (List Nat)
  isMFT : Bool
  extracted : Option (List (Nat × Int))
  names : List (List Nat)
deriving DecidableEq

/-- The `FILE_NAME` dispatch branch (lines 197-204): decode the name,
record it, and toggle `isMFTFile` by the `strcmp` against `$MFT`. -/
def stepName (buf : Nat → Nat) (off : Nat) (st : FRState) : FRState :=
  if le32 buf off = 48 then
    { st with
      ascName := some (getFileName buf off)
      isMFT := getFileName buf off == mftName
      names := st.names ++ [getFileName buf off] }
  else st

/-- The non-resident branch (lines 262-406): decode the attribute's run
list; when `isMFTFile` holds and the type is `DATA`, the extraction
block consumes it. -/
def stepData (buf : Nat → Nat) (off : Nat) (st : FRState) : FRState :=
  if buf (off + 8) % 256 = 1 then
    if st.isMFT = true ∧ le32 buf off = 128 then
      { st with extracted := some (decodeRuns buf off (le16 buf (off + 32))) }
    else st
  else st

/-- The stage-A do-while over the first record's attributes (lines
181-408).  `recLen` is the record header's `dwRecLength`; the
`uint16_t` attribute offset advances by `dwFullLength` each round and
the loop continues while `attribOffset + 8 < dwRecLength`.  Fuel bounds
the loop, which C does not. -/
def walkA (buf : Nat → Nat) (recLen : Nat) : Nat → Nat → FRState → FRState
  | 0, _, st => st
  | fuel + 1, off, st =>
    let st2 := stepData buf off (stepName buf off st)
    let off1 := (off + le32 buf (off + 4)) % 65536
    if off1 + 8 < recLen then walkA buf recLen fuel off1 st2 else st2

/-- Walk the first MFT record's attribute chain from
`wAttribOffset` (offset 20) bounded by `dwRecLength` (offset 24). -/
def firstWalk (buf : Nat → Nat) : FRState :=
  walkA buf (le32 buf 24) MFT_RECORD_LENGTH (le16 buf 20) ⟨none, false, none, []⟩

/-- Outcome of stage A for one partition given the first MFT record:
`Except.error` would be a `return EXIT_FAILURE`, the payload is the
decoded run list the extraction block consumed (or `none` when the
block never ran).  On the paths the embedding models no I/O fails, so
the result is always `Except.ok`. -/
def processFirstRecord (buf : Nat → Nat) : Except FatalErr (Option (List (Nat × Int))) :=
  .ok (firstWalk buf).extracted

/-- Invariant: the `isMFTFile` toggle and the extraction trigger can
only be on after a `$FILE_NAME` attribute whose decoded name is
`$MFT` was seen (and hence recorded in `names`). -/
def FRInv (st : FRState) : Prop :=
  (st.isMFT = true → mftName ∈ st.names) ∧ (st.extracted ≠ none → mftName ∈ st.names)

/-! ## Concrete inputs for the scenario theorems -/

/-- Run-list bytes `0x11 02 04 0x11 03 9C 00` of scenario S4 (negative
delta). -/
def bufC1 : Nat → Nat := tbl [(0, 17), (1, 2), (2, 4), (3, 17), (4, 3), (5, 156)]

/-- Run-list bytes `0x11 02 04 0x11 03 60 00` of scenario S3: two runs,
lengths 2 and 3 clusters, deltas +4 and +96. -/
def bufC2 : Nat → Nat := tbl [(0, 17), (1, 2), (2, 4), (3, 17), (4, 3), (5, 96)]

/-- An all-zero block device. -/
def devZero : Int → Nat := fun _ => 0

/-- Byte pattern of a minimal `FILE0` record: signature plus fixup
offset 0x0030, `wAttribOffset` 48, `wFlags` 1, `dwRecLength` 0, and at
attribute offset 48 a `dwFullLength` of 2000 (which fails the stage-B
length check at once). -/
def recBytesC8 : Nat → Nat :=
  tbl [(0, 70), (1, 73), (2, 76), (3, 69), (4, 48), (20, 48), (22, 1), (52, 208), (53, 7)]

/-- Block device for the C8 scenario: with 1008-byte clusters, run 1
covers device bytes 0..2015 and contains one such record starting at
byte 1008; run 2 covers device bytes 2016..4031 and contains the same
record pattern starting at byte 2016 (its own start). -/
def devC8 : Int → Nat := fun p =>
  if 1008 ≤ p ∧ p < 2016 then recBytesC8 (p - 1008).toNat
  else if 2016 ≤ p ∧ p < 3024 then recBytesC8 (p - 2016).toNat
  else 0

/-- Decoded run list for the C8 scenario: after the code's reversal the
iteration order is `[(2, 0), (2, 2)]`, so run 1 (2 clusters at raw
offset 0) is written first and run 2 (2 clusters at raw offset 2, i.e.
device byte 2016 with 1008-byte clusters) second. -/
def decodedC8 : List (Nat × Int) := [(2, 2), (2, 0)]

/-- Scenario S5 stride: a `FILE0` record whose first attribute (at
offset 56) claims `dwFullLength = 0xFFFF`. -/
def strideS5 : Nat → Nat :=
  tbl [(0, 70), (1, 73), (2, 76), (3, 69), (4, 48), (20, 56), (60, 255), (61, 255)]

/-- A `FILE0` record stride with `dwRecLength` (used size) 512,
`wAttribOffset` 100, and a first attribute with `dwFullLength` 500:
the attribute overflows the used size (100 + 500 > 512) but not the
fixed 1024-byte record length. -/
def strideC6 : Nat → Nat :=
  tbl [(0, 70), (1, 73), (2, 76), (3, 69), (4, 48), (20, 100), (22, 1), (24, 0), (25, 2),
       (104, 244), (105, 1)]

/-- A stride that is neither `FRAG` nor `FILE0`. -/
def corruptStride : Nat → Nat := fun _ => 7

/-- A two-stride linearized MFT: a corrupt stride followed by a valid
`FILE0` record stride. -/
def sfC4 : Nat → Nat := fun p => if p < 1024 then 7 else strideS5 (p - 1024)

/-- First MFT record whose only `$FILE_NAME` attribute names `FOO`
(not `$MFT`), followed by a non-resident `DATA` attribute with run list
`0x11 02 04 00`. -/
def bufFoo : Nat → Nat :=
  tbl [(20, 40), (24, 210), (40, 48), (44, 96), (60, 24), (120, 3),
       (122, 70), (124, 79), (126, 79), (136, 128), (140, 72), (144, 1), (168, 64),
       (200, 17), (201, 2), (202, 4)]

/-- The same record as `bufFoo` but with the `$FILE_NAME` name set to
`$MFT`. -/
def bufMFT : Nat → Nat :=
  tbl [(20, 40), (24, 210), (40, 48), (44, 96), (60, 24), (120, 4),
       (122, 36), (124, 77), (126, 70), (128, 84), (136, 128), (140, 72), (144, 1), (168, 64),
       (200, 17), (201, 2), (202, 4)]

/-! ## Helper lemmas -/

theorem extRun_pos (dev : Int → Nat) (bpc : Nat) (st : ExtAcc) (r : Nat × Int) :
    (extRun dev bpc st r).pos = st.pos + (bpc : Int) * r.2 := by
  simp [extRun]

theorem extGo_frags_sink (dev : Int → Nat) (bpc : Nat) :
    ∀ (rs : List (Nat × Int)) (st : ExtAcc),
      (extGo dev bpc st rs).frags = st.frags ++ fragsFrom bpc st.pos rs ∧
      (extGo dev bpc st rs).sink = st.sink ++ sinkFromFrags dev (fragsFrom bpc st.pos rs) := by
  intro rs
  induction rs with
  | nil => intro st; simp [extGo, fragsFrom, sinkFromFrags]
  | cons r rs ih =>
    intro st
    have h := ih (extRun dev bpc st r)
    constructor
    · rw [extGo, h.1, extRun_pos]
      simp [extRun, fragsFrom]
    · rw [extGo, h.2, extRun_pos]
      simp [extRun, fragsFrom, sinkFromFrags]

theorem fragsFrom_len (bpc : Nat) :
    ∀ (rs : List (Nat × Int)) (pos : Int), (fragsFrom bpc pos rs).length = rs.length := by
  intro rs
  induction rs with
  | nil => intro pos; simp [fragsFrom]
  | cons r rs ih => intro pos; simp [fragsFrom, ih]

theorem fragsFrom_fst (bpc : Nat) :
    ∀ (rs : List (Nat × Int)) (pos : Int),
      (fragsFrom bpc pos rs).map Prod.fst =
        (List.range rs.length).map
          (fun k => pos + (bpc : Int) * (((rs.take (k + 1)).map Prod.snd).sum)) := by
  intro rs
  induction rs with
  | nil => intro pos; simp [fragsFrom]
  | cons r rs ih =>
    intro pos
    rw [fragsFrom, List.length_cons, List.range_succ_eq_map]
    simp only [List.map_cons, List.map_map]
    congr 1
    · simp [List.take_succ_cons]
    · rw [ih (pos + (bpc : Int) * r.2)]
      apply List.map_congr_left
      intro k _
      simp only [Function.comp_apply, List.take_succ_cons, List.map_cons, List.sum_cons]
      ring

theorem extractMFT_sink_eq (dev : Int → Nat) (base : Int) (bpc : Nat)
    (decoded : List (Nat × Int)) :
    (extractMFT dev base bpc decoded).sink =
      sinkFromFrags dev ((extractMFT dev base bpc decoded).frags) := by
  rw [extractMFT]
  have h := extGo_frags_sink dev bpc (reverseList decoded) (initExt base)
  rw [h.1, h.2]
  simp [initExt]

theorem createFragRecord_length (off : Int) : (createFragRecord off).length = 16 := by
  simp [createFragRecord, le64Bytes]

theorem readDev_length (dev : Int → Nat) (p : Int) (n : Nat) :
    (readDev dev p n).length = n := by
  rw [readDev, List.length_map, List.length_range]

theorem readDev_getD (dev : Int → Nat) (p : Int) (n i : Nat) (h : i < n) :
    (readDev dev p n).getD i 0 = dev (p + i) % 256 := by
  rw [List.getD_eq_getElem _ _ (by simpa [readDev_length] using h)]
  simp only [readDev, List.getElem_map, List.getElem_range]

theorem sinkFromFrags_length (dev : Int → Nat) :
    ∀ frags : List (Int × Nat),
      (sinkFromFrags dev frags).length =
        (frags.map (fun f => 16 + f.2)).sum := by
  intro frags
  induction frags with
  | nil => simp [sinkFromFrags]
  | cons f t ih =>
    simp [sinkFromFrags, createFragRecord_length, readDev_length, ih, Nat.add_assoc]

theorem sinkFromFrags_getD (dev : Int → Nat) :
    ∀ (frags : List (Int × Nat)) (p : Nat),
      (sinkFromFrags dev frags).getD p 0 = sinkFunFromFrags dev frags p := by
  intro frags
  induction frags with
  | nil => intro p; simp [sinkFromFrags, sinkFunFromFrags]
  | cons f t ih =>
    intro p
    rw [sinkFromFrags, sinkFunFromFrags]
    by_cases h16 : p < 16
    · rw [List.append_assoc, List.getD_append _ _ _ _ (by rw [createFragRecord_length]; exact h16)]
      simp [h16]
    · rw [if_neg h16]
      by_cases hrun : p < 16 + f.2
      · rw [List.append_assoc,
          List.getD_append_right _ _ _ _ (by rw [createFragRecord_length]; omega),
          List.getD_append _ _ _ _ (by rw [readDev_length, createFragRecord_length]; omega)]
        rw [if_pos hrun, createFragRecord_length]
        rw [readDev_getD _ _ _ _ (by omega)]
        congr 1
        push_cast [Nat.cast_sub (by omega : 16 ≤ p)]
        ring
      · rw [if_neg hrun, List.append_assoc,
          List.getD_append_right _ _ _ _ (by rw [createFragRecord_length]; omega),
          List.getD_append_right _ _ _ _ (by rw [readDev_length, createFragRecord_length]; omega),
          ih]
        congr 1
        rw [readDev_length, createFragRecord_length]
        omega

theorem walkB_bad (s : Nat → Nat) (recLen fuel off bad fn : Nat) (nm : Option (List Nat))
    (h : wrap32 ((MFT_RECORD_LENGTH : Int) - (off : Int)) < le32 s (off + 4)) :
    walkB s recLen (fuel + 1) off bad fn nm = (bad + 1, fn, nm) := by
  rw [walkB]
  simp [h]

theorem sigFile_not_frag (s : Nat → Nat) (h : sigIsFile0 s = true) : sigIsFrag s = false := by
  simp only [sigIsFile0, Bool.and_eq_true, beq_iff_eq] at h
  simp [sigIsFrag, h.1.1.1.1.2]

theorem stepName_inv (buf : Nat → Nat) (off : Nat) (st : FRState) (h : FRInv st) :
    FRInv (stepName buf off st) := by
  rw [stepName]
  by_cases hty : le32 buf off = 48
  · rw [if_pos hty]
    constructor
    · intro hm
      simp only at hm
      have : getFileName buf off = mftName := by simpa using hm
      simp [this]
    · intro hx
      simp only at hx
      exact List.mem_append_left _ (h.2 hx)
  · rw [if_neg hty]; exact h

theorem stepData_inv (buf : Nat → Nat) (off : Nat) (st : FRState) (h : FRInv st) :
    FRInv (stepData buf off st) := by
  rw [stepData]
  by_cases hnr : buf (off + 8) % 256 = 1
  · rw [if_pos hnr]
    by_cases hd : st.isMFT = true ∧ le32 buf off = 128
    · rw [if_pos hd]
      exact ⟨fun _ => h.1 hd.1, fun _ => h.1 hd.1⟩
    · rw [if_neg hd]; exact h
  · rw [if_neg hnr]; exact h

theorem walkA_inv (buf : Nat → Nat) (recLen : Nat) :
    ∀ (fuel off : Nat) (st : FRState), FRInv st → FRInv (walkA buf recLen fuel off st) := by
  intro fuel
  induction fuel with
  | zero => intro off st h; exact h
  | succ fuel ih =>
    intro off st h
    rw [walkA]
    have h2 := stepData_inv buf off _ (stepName_inv buf off st h)
    by_cases hc : (off + le32 buf (off + 4)) % 65536 + 8 < recLen
    · simp only [if_pos hc]
      exact ih _ _ h2
    · simp only [if_neg hc]
      exact h2

/-! ## Claim theorems -/

set_option maxRecDepth 4000

/-- C1: the claim says the run-list decoder sign-extends the O-byte
offset field and accumulates it into a running LCN, so that
`0x11 02 04` followed by `0x11 03 9C` decodes to runs (2, 4) and
(3, -96).  The code instead `memcpy`s the offset bytes into a
zero-initialised `int64_t` (zero-extension) and stores the raw per-run
delta without accumulating: the same bytes decode to (2, 4) and
(3, +156).  The spec's §4.6 algorithm (sign-extension plus
accumulation) does produce (2, 4), (3, -96). -/
theorem c1_runlist_zero_extension :
    decodeRuns bufC1 0 0 = [(2, 4), (3, 156)] ∧
    runListDecodeSpec [17, 2, 4, 17, 3, 156, 0] = some [(2, some 4), (3, some (-96))] := by
  decide

/-- C2: the claim says the extractor writes the fragments in decoded
(VCN) order, the first run's marker and bytes before the second's.  The
code reverses the decoded list (line 313) before iterating, so for the
decoded two-run list [(2, 4), (3, 96)] (bytes `0x11 02 04 0x11 03 60`)
with one-byte clusters the first fragment written is the 3-cluster
second run (and, through the relative seeks, at device offset 96 rather
than 100), followed by the 2-cluster first run at offset 100 rather
than 4. -/
theorem c2_reversed_fragment_order :
    decodeRuns bufC2 0 0 = [(2, 4), (3, 96)] ∧
    (extractMFT devZero 0 1 (decodeRuns bufC2 0 0)).frags = [(96, 3), (100, 2)] := by
  decide

/-- C3 counterexample: the claim's classification mapping (0x03 →
directory, 0x02 → deleted directory, others impossible) gives counters
(4, 3, 3, 0) on the S6 input; the code's if/else chain, in which
`mftFlags==IN_USE||DIRECTORY` is always true, yields (4, 4, 2, 0)
instead (0x02 is counted as a directory, not as deleted). -/
theorem c3_counterexample :
    countFlags [1, 1, 1, 1, 3, 3, 3, 0, 0, 2] = ⟨4, 4, 2, 0⟩ ∧
    countFlags [1, 1, 1, 1, 3, 3, 3, 0, 0, 2] ≠ ⟨4, 3, 3, 0⟩ := by
  decide

/-- C3 (amended): classification is a function of the 16-bit flags
field with the mapping the code actually computes:  0x01 → file, 0x00 →
deleted, every other value → directory; the `other` counter is
unreachable; the S6 input yields files=4, directories=4, deleted=2,
other=0. -/
theorem c3_classification_amended :
    (∀ f, classifyFlags f ≠ RecClass.other) ∧
    (∀ f, f ≠ IN_USE → f ≠ 0 → classifyFlags f = RecClass.directory) ∧
    countFlags [1, 1, 1, 1, 3, 3, 3, 0, 0, 2] = ⟨4, 4, 2, 0⟩ := by
  refine ⟨fun f => ?_, fun f h1 h0 => ?_, by decide⟩
  · rw [classifyFlags]
    split_ifs with ha hb hc
    · decide
    · decide
    · decide
    · exact absurd (Or.inr (by decide)) hc
  · rw [classifyFlags, if_neg h1, if_neg h0, if_pos (Or.inr (by decide))]

/-- C3 witness: flags value 5 (neither 0x01 nor 0x00) is classified as
a directory. -/
theorem c3_classification_witness : classifyFlags 5 = RecClass.directory :=
  c3_classification_amended.2.1 5 (by decide) (by decide)

/-- C4 counterexample: a stride whose leading bytes are neither `FILE`
nor `FRAG` makes the cataloger exit with failure; a valid `FILE0`
record in the following stride — which on its own would be cataloged —
is never processed.  The claim says the corrupt stride would be counted
and skipped. -/
theorem c4_counterexample :
    catalogStrides sfC4 2 = Except.error () ∧
    (catalogGo [strideFn sfC4 1] initCat).isOk = true := by
  constructor
  · rfl
  · decide

/-- C4 (amended): when the cataloger reads a stride whose leading bytes
are neither the `FILE` record signature nor the `FRAG` marker, it
prints "MFT file corrupted." and returns `EXIT_FAILURE` immediately; no
corruption counter exists and the remaining strides are not
processed. -/
theorem c4_corrupt_exit_amended (st : CatState) (s : Nat → Nat) (rest : List (Nat → Nat))
    (h1 : sigIsFrag s = false) (h2 : sigIsFile0 s = false) :
    catalogGo (s :: rest) st = Except.error () := by
  rw [catalogGo]
  simp [h1, h2]

/-- C4 witness: the all-7 stride satisfies neither signature check and
the cataloger errors out on it. -/
theorem c4_corrupt_exit_witness :
    sigIsFrag corruptStride = false ∧ sigIsFile0 corruptStride = false ∧
    catalogGo [corruptStride] initCat = Except.error () :=
  ⟨by decide, by decide, c4_corrupt_exit_amended initCat corruptStride [] (by decide) (by decide)⟩

/-- C5 counterexample: for a first MFT record whose only `$FILE_NAME`
is `FOO`, stage A completes without any error (`Except.ok`) and simply
does not extract (`none`); the same record renamed `$MFT` does trigger
extraction of its `DATA` run list, so the skip is not vacuous.  The
claim says the `FOO` case fails with an MFTNotFound error. -/
theorem c5_counterexample :
    (firstWalk bufFoo).names = [[70, 79, 79]] ∧
    processFirstRecord bufFoo = Except.ok none ∧
    (firstWalk bufMFT).names = [mftName] ∧
    (firstWalk bufMFT).extracted = some [(2, 4)] := by
  exact ⟨by decide, by rfl, by decide, by decide⟩

/-- C5 (amended): if no `$FILE_NAME` attribute of the first MFT record
decodes to `$MFT`, stage A raises no error at all: it returns
successfully having skipped the extraction, so no linearized MFT is
produced for the partition but processing continues. -/
theorem c5_silent_skip_amended (buf : Nat → Nat)
    (h : mftName ∉ (firstWalk buf).names) :
    processFirstRecord buf = Except.ok none := by
  have hinv : FRInv (firstWalk buf) := by
    rw [firstWalk]
    exact walkA_inv buf (le32 buf 24) MFT_RECORD_LENGTH (le16 buf 20) ⟨none, false, none, []⟩
      ⟨by simp, by simp⟩
  rw [processFirstRecord]
  cases hx : (firstWalk buf).extracted with
  | none => rfl
  | some v =>
    exact absurd (hinv.2 (by rw [hx]; simp)) h

/-- C5 witness: the `FOO`-named record has no `$MFT` name in its walk,
and stage A returns `Except.ok none` on it. -/
theorem c5_silent_skip_witness :
    mftName ∉ (firstWalk bufFoo).names ∧ processFirstRecord bufFoo = Except.ok none :=
  ⟨by decide, c5_silent_skip_amended bufFoo (by decide)⟩

/-- C6 counterexample: a record with used size (`dwRecLength`) 512,
first attribute at offset 100 claiming `dwFullLength` 500 overflows the
used size (100 + 500 > 512) but not the fixed record length (500 ≤
1024 - 100); the code's check compares only against the latter, so no
bad attribute is counted (`countBadAttr = 0`) where the claim requires
one. -/
theorem c6_counterexample :
    le16 strideC6 20 = 100 ∧ le32 strideC6 24 = 512 ∧ le32 strideC6 104 = 500 ∧
    (catalogGo [strideC6] initCat).toOption =
      some ⟨0, ⟨1, 0, 0, 0⟩, 0, 0, 1, 0, [⟨none, 0, 0⟩]⟩ := by
  decide

/-- C6 (amended): the stage-B bad-attribute condition is
`dwFullLength > MFT_RECORD_LENGTH - attrOffset` (the fixed 1024-byte
record length, not the header's used size); when the first attribute
trips it, the walk stops, one bad attribute is counted, the record is
still counted and cataloged (with no name), and the cataloger continues
with the remaining strides. -/
theorem c6_bad_attribute_amended (st : CatState) (s : Nat → Nat) (rest : List (Nat → Nat))
    (hsig : sigIsFile0 s = true)
    (hbad : wrap32 ((MFT_RECORD_LENGTH : Int) - (le16 s 20 : Int)) <
      le32 s (le16 s 20 + 4)) :
    catalogGo (s :: rest) st = catalogGo rest (fileStepBad st s) := by
  have hfrag := sigFile_not_frag s hsig
  rw [catalogGo]
  simp only [hfrag, hsig, Bool.false_eq_true, if_false, if_true]
  congr 1
  have hw : walkB s (le32 s 24) MFT_RECORD_LENGTH (le16 s 20) 0 0 none = (1, 0, none) :=
    walkB_bad s (le32 s 24) 1023 (le16 s 20) 0 0 none hbad
  simp only [processFile, hw, fileStepBad, addFile, Nat.add_zero]

/-- C6 witness: the S5 stride (first attribute length 0xFFFF in a
1024-byte record) trips the check, is counted bad, and cataloging
proceeds. -/
theorem c6_bad_attribute_witness :
    sigIsFile0 strideS5 = true ∧
    wrap32 ((MFT_RECORD_LENGTH : Int) - (le16 strideS5 20 : Int)) <
      le32 strideS5 (le16 strideS5 20 + 4) ∧
    catalogGo [strideS5] initCat = catalogGo [] (fileStepBad initCat strideS5) :=
  ⟨by decide, by decide, c6_bad_attribute_amended initCat strideS5 [] (by decide) (by decide)⟩

/-- C7 counterexample: for a BPB with bytes_per_cluster 4096 and
`clusters_per_mft_record = 1` the claimed derivation yields 4096, but
the code reads and strides records with the fixed constant
`MFT_RECORD_LENGTH = 1024`. -/
theorem c7_counterexample :
    mftRecordSizeSpec (512 * 8) 1 = 4096 ∧ MFT_RECORD_LENGTH = 1024 ∧
    mftRecordSizeSpec (512 * 8) 1 ≠ MFT_RECORD_LENGTH := by
  decide

/-- C7 (amended): the record size the code uses for reading the first
MFT record and striding the linearized MFT is the fixed constant 1024;
it is not derived from the BPB.  For the claim's example BPB
(bytes_per_sector 512, sectors_per_cluster 8, clusters_per_mft_record
-10) the spec's derivation happens to yield the same 1024. -/
theorem c7_fixed_record_size_amended :
    MFT_RECORD_LENGTH = 1024 ∧ mftRecordSizeSpec (512 * 8) (-10) = MFT_RECORD_LENGTH := by
  decide

/-- C8 counterexample: device with 1008-byte clusters, two 2-cluster
runs at device offsets 0 and 2016, each containing a `FILE0` record
(run 1 at its byte 1008, run 2 at its start).  The extractor writes
markers (0, run 1 bytes) and (2016, run 2 bytes); but because markers
are 16 bytes inside a 1024-byte-stride stream, the cataloger consumes
the second marker mid-stride: it sees only one `FRAG` stride, and both
cataloged records — including the one whose bytes verifiably come from
device offset 2016 inside run 2 (third conjunct) — carry
`fragment_origin_offset` 0 instead of 2016. -/
theorem c8_counterexample :
    (extractMFT devC8 0 1008 decodedC8).frags = [(0, 2016), (2016, 2016)] ∧
    (catalogSink (extractMFT devC8 0 1008 decodedC8).sink).toOption =
      some ⟨0, ⟨2, 0, 0, 0⟩, 2, 1, 2, 0, [⟨none, 0, 0⟩, ⟨none, 0, 0⟩]⟩ ∧
    (List.range 8).map (fun (i : Nat) => (extractMFT devC8 0 1008 decodedC8).sink.getD (2048 + i) 0) =
      (List.range 8).map (fun (i : Nat) => devC8 (2016 + (i : Int)) % 256) := by
  have hfr : (extractMFT devC8 0 1008 decodedC8).frags = [(0, 2016), (2016, 2016)] := by decide
  have hsk := extractMFT_sink_eq devC8 0 1008 decodedC8
  rw [hfr] at hsk
  refine ⟨hfr, ?_, ?_⟩
  · have hlen : (extractMFT devC8 0 1008 decodedC8).sink.length = 4064 := by
      rw [hsk, sinkFromFrags_length]
      decide
    have hfun : (fun p => (extractMFT devC8 0 1008 decodedC8).sink.getD p 0) =
        sinkFunFromFrags devC8 [(0, 2016), (2016, 2016)] := by
      funext p
      rw [hsk, sinkFromFrags_getD]
    rw [catalogSink, hlen, hfun]
    decide
  · simp only [hsk, sinkFromFrags_getD]
    decide

/-- C8 (amended): in the sink the extractor writes, a 16-byte fragment
marker appears exactly once immediately before each run's bytes (one
marker per run of the iterated list), and the offset each marker
carries is exactly the device offset the following bytes were read
from; the further claim that every cataloged FileEntry's
fragment_origin_offset equals the device offset of the run containing
its record does not survive the 16-byte misalignment the markers
introduce into the 1024-byte stride stream. -/
theorem c8_marker_layout_amended (dev : Int → Nat) (base : Int) (bpc : Nat)
    (decoded : List (Nat × Int)) :
    (extractMFT dev base bpc decoded).sink =
      sinkFromFrags dev ((extractMFT dev base bpc decoded).frags) ∧
    (extractMFT dev base bpc decoded).frags.length = decoded.length := by
  refine ⟨extractMFT_sink_eq dev base bpc decoded, ?_⟩
  rw [extractMFT, (extGo_frags_sink dev bpc (reverseList decoded) (initExt base)).1]
  simp [initExt, fragsFrom_len, reverseList]

/-- C9: starting from the partition base set by the absolute seek, each
run's raw stored offset field is applied as a relative seek and the
position is rewound by the read length after every run, so the device
position at which run k of the iterated list is read equals
`base + bytes_per_cluster * (sum of the offset fields of the runs
processed so far)`. -/
theorem c9_relative_seek_positions (dev : Int → Nat) (base : Int) (bpc : Nat)
    (rs : List (Nat × Int)) :
    (extGo dev bpc (initExt base) rs).frags.map Prod.fst =
      (List.range rs.length).map
        (fun k => base + (bpc : Int) * (((rs.take (k + 1)).map Prod.snd).sum)) := by
  rw [(extGo_frags_sink dev bpc rs (initExt base)).1]
  simp only [initExt, List.nil_append]
  exact fragsFrom_fst bpc rs base

/-- C10: the extraction stage sizes its name buffer without the
`.data` suffix, so the formatted `"%s%d.data"` is truncated to the
recovered name plus the partition index (partition 0 of `$MFT` yields
the file `$MFT0`), while the cataloging stage always opens the fixed
name `$MFT1`. -/
theorem c10_file_naming (asc : List Char) (p : Nat)
    (h : (asc ++ partSuffix p).length + 1 < 256) :
    extractionFileNameL asc p = asc ++ partSuffix p ∧
    catalogInputFileName = "$MFT1".data := by
  constructor
  · rw [extractionFileNameL]
    simp only [Nat.mod_eq_of_lt h, Nat.add_sub_cancel]
    exact List.take_left _ _
  · rfl

/-- C10 witness: partition 0 of `$MFT` yields the file name `$MFT0`,
and the cataloger's input name is `$MFT1`. -/
theorem c10_file_naming_witness :
    extractionFileNameL "$MFT".data 0 = "$MFT0".data ∧
    catalogInputFileName = "$MFT1".data := by
  have h := c10_file_naming "$MFT".data 0 (by decide)
  exact ⟨h.1.trans (by decide), h.2⟩

end RawNTFS
